import Mathlib

/-!
Verification development for the lsif-node indexer core: a shallow
embedding of the symbol-identity and moniker resolution engine
(`src/indexer.ts`, `src/v2/indexer.ts`, `src/Visitor.ts`, and the
top-level `Indexer.index` driver), together with theorems about the
claims of the natural-language specification.

Conventions of the embedding:
* The TypeScript classes mutate instance fields; we carry an explicit
  state record through every operation.
* `ts.Symbol` handles are opaque `SymbolId` naturals; every query that
  the code issues against the type checker / `tss` helpers is a field
  of an oracle record (`Ctx`), matching the spec's treatment of the
  semantic-analysis layer as a black box.
* JavaScript `Map` objects are association lists; `Map.set` is a cons
  (lookup returns the most recent binding, as `Map.get` returns the
  overwritten value).
* Object references returned by the caches are represented by their
  cache keys; reads and mutations of such a reference go through the
  cache map.
* The mutually recursive symbol-data construction is made total with
  an explicit fuel argument; exhausted fuel is the distinguished
  result `Res.outOfFuel`.
-/

namespace LsifTsc

/-- A line/character position (`lsp.Position`). -/
structure Pos where
  line : Nat
  character : Nat
deriving DecidableEq, Repr

/-- A half-open range in one file (`lsp.Range`). -/
structure Rg where
  startP : Pos
  endP : Pos
deriving DecidableEq, Repr

/-- `phantomPosition` from src/indexer.ts. -/
def phantomPosition : Pos := ⟨0, 0⟩

/-- `phantomRange` from src/indexer.ts. -/
def phantomRange : Rg := ⟨phantomPosition, phantomPosition⟩

/-- The syntax kinds the indexer dispatches on (`ts.SyntaxKind`). -/
inductive SynKind where
  | sourceFileKind
  | exportAssignment
  | exportDeclaration
  | identifier
  | stringLiteral
  | classDeclaration
  | interfaceDeclaration
  | typeParameter
  | methodDeclaration
  | functionDeclaration
  | otherKind
deriving DecidableEq, Repr

/-- The part of `ts.SourceFile` the indexer reads. -/
structure SourceFile where
  fileName : String
  isDeclarationFile : Bool
deriving DecidableEq, Repr

/-- The part of a `ts.Node` the indexer reads.  `name` is the name
child of a named declaration, `expression` the operand of an export
assignment, `namedExportElements` the `(name, propertyName)` elements
when the export clause is a `NamedExports`, `moduleSpecifier` the
module specifier of an export declaration. -/
inductive Node where
  | mk (sourceFile : SourceFile) (rg : Rg) (kind : SynKind) (text : String)
       (name : Option Node) (expression : Option Node)
       (namedExportElements : Option (List (Node × Option Node)))
       (moduleSpecifier : Option Node) : Node

namespace Node

def sourceFile : Node → SourceFile
  | .mk sf _ _ _ _ _ _ _ => sf

def rg : Node → Rg
  | .mk _ r _ _ _ _ _ _ => r

def kind : Node → SynKind
  | .mk _ _ k _ _ _ _ _ => k

def text : Node → String
  | .mk _ _ _ t _ _ _ _ => t

def name : Node → Option Node
  | .mk _ _ _ _ n _ _ _ => n

def expression : Node → Option Node
  | .mk _ _ _ _ _ e _ _ => e

def namedExportElements : Node → Option (List (Node × Option Node))
  | .mk _ _ _ _ _ _ els _ => els

def moduleSpecifier : Node → Option Node
  | .mk _ _ _ _ _ _ _ m => m

end Node

/-- `tss.isNamedDeclaration`: the node exposes a name child. -/
def isNamedDeclaration (n : Node) : Bool := n.name.isSome

/-- `rangeFromNode` from src/indexer.ts: the start position is the
phantom position when the node is the source file itself. -/
def rangeFromNode (file : SourceFile) (node : Node) : Rg :=
  { startP := if node.kind = SynKind.sourceFileKind ∧ node.sourceFile = file
              then phantomPosition else node.rg.startP,
    endP := node.rg.endP }

/-- `symbolKindMap` from src/indexer.ts, with the `lsp.SymbolKind`
codes; lookup failure falls back to `lsp.SymbolKind.Property` (7). -/
def symbolKindMap : SynKind → Option Nat
  | SynKind.classDeclaration => some 5
  | SynKind.interfaceDeclaration => some 11
  | SynKind.typeParameter => some 26
  | SynKind.methodDeclaration => some 6
  | SynKind.functionDeclaration => some 12
  | _ => none

/-- Modelled from the spec (src/typescripts.ts is not in the sources):
`tss.createDefinitionInfo` — "a definition-info equality check
(file + range)". -/
structure DefinitionInfo where
  file : String
  range : Rg
deriving DecidableEq, Repr

/-- `tss.createDefinitionInfo(sourceFile, node)`. -/
def createDefinitionInfo (file : SourceFile) (node : Node) : DefinitionInfo :=
  { file := file.fileName, range := rangeFromNode file node }

/-- An opaque handle to a semantic symbol owned by the oracle. -/
abbrev SymbolId : Type := Nat

/-- The per-symbol facts the indexer queries from the type checker and
the `tss` helpers (all treated as black-box oracle data, per the
spec's external-interface contract). -/
structure SymbolInfo where
  /-- Modelled from the spec (src/typescripts.ts is not in the
  sources): `tss.createSymbolKey` — "a string computable without
  re-querying the oracle, used as the cache key". -/
  key : String
  name : String
  /-- `symbol.getFlags() & ts.SymbolFlags.Alias ≠ 0`; also
  `tss.isAliasSymbol`. -/
  flagsAlias : Bool
  /-- `symbol.getFlags() & ts.SymbolFlags.ExportStar ≠ 0`. -/
  flagsExportStar : Bool
  /-- `tss.isTransient`. -/
  isTransient : Bool
  /-- `(symbol.getFlags() & ~ts.SymbolFlags.Transient) === 0`. -/
  onlyTransientFlags : Bool
  /-- `tss.isMethodSymbol`. -/
  isMethod : Bool
  /-- `tss.isTypeAlias`. -/
  isTypeAlias : Bool
  /-- `tss.getSymbolParent`. -/
  parent : Option SymbolId
  /-- `typeChecker.getAliasedSymbol`. -/
  aliasedSymbol : SymbolId
  /-- `symbol.getDeclarations()` (may be `undefined`). -/
  declarations : Option (List Node)
  /-- `tss.isSourceFile` applied to the symbol. -/
  isSourceFileSymbol : Bool
  /-- `tss.isValueModule`. -/
  isValueModule : Bool

/-- The oracle bundle: the type checker, the `tss` helpers missing
from the sources, and the path configuration of the indexer. -/
structure Ctx where
  symbolInfo : SymbolId → SymbolInfo
  /-- `tss.isComposite(typeChecker, symbol, node)`. -/
  isComposite : SymbolId → Option Node → Bool
  /-- `tss.getCompositeSymbols(typeChecker, symbol, node)`. -/
  compositeSymbols : SymbolId → Option Node → Option (List SymbolId)
  /-- `Symbols.findBaseMembers(container, name)`. -/
  findBaseMembers : SymbolId → String → List SymbolId
  /-- `Symbols.getLocationKind(sourceFiles)` (opaque result code). -/
  getLocationKind : List SourceFile → Nat
  /-- `Symbols.getExportPath(symbol, locationKind)`. -/
  getExportPath : SymbolId → Nat → Option String
  /-- `typeChecker.getSymbolAtLocation(node)`. -/
  symbolAtLocation : Node → Option SymbolId
  /-- `tss.getSymbolFromNode(node)`. -/
  symbolFromNode : Node → Option SymbolId
  /-- `getHover` via the language service (best-effort). -/
  hover : Node → Option String
  /-- `tss.Program.isSourceFileFromExternalLibrary`. -/
  isExternalLib : String → Bool
  projectRoot : String
  rootDir : String
  outDir : String

/-- Modelled from the spec (src/typescripts.ts is not in the sources):
`tss.computeMonikerPath(root, filePath)` strips the root prefix from
the path. -/
def tssComputeMonikerPath (root filePath : String) : Option String :=
  if (root ++ "/").isPrefixOf filePath then
    some (filePath.drop (root.length + 1))
  else
    none

/-- Modelled from the spec (src/typescripts.ts is not in the sources):
`tss.toOutLocation(fileName, rootDir, outDir)` rewrites a
rootDir-relative location to the outDir. -/
def toOutLocation (fileName rootDir outDir : String) : String :=
  if (rootDir ++ "/").isPrefixOf fileName then
    outDir ++ "/" ++ fileName.drop (rootDir.length + 1)
  else
    fileName

/-- Modelled from the spec (src/typescripts.ts is not in the sources):
`tss.createMonikerIdentifier` concatenates the moniker path and the
export path with a separator. -/
def createMonikerIdentifier (monikerPath : Option String) (exportPath : Option String) : String :=
  monikerPath.getD "" ++ ":" ++ exportPath.getD ""

/-- A tagged range vertex (`emitter.vertex.range(range, tag)`). -/
inductive RangeTag where
  | referenceTag (text : String)
  | definitionTag (text : String) (kind : Nat) (fullRange : Rg)
deriving DecidableEq, Repr

/-- A range vertex. -/
structure RangeV where
  range : Rg
  tag : RangeTag
deriving DecidableEq, Repr

/-- The abstract emission events the core hands to the graph writer. -/
inductive EmitEvent where
  | documentVertex (fileName : String)
  | beginDocument (fileName : String)
  | beginSymbol
  | rangeVertex (v : RangeV)
  | importMoniker (identifier : String)
  | exportMoniker (identifier : String)
deriving DecidableEq, Repr

/-- Modelled from the spec (src/document.ts is not in the sources):
the Document Graph Node — "one per source file; holds the file's
moniker-path prefix, an external-library flag, and the ordered list of
occurrence nodes emitted for that file". -/
structure DocumentData where
  document : String
  externalLibrary : Bool
  monikerPath : Option String
  ranges : List RangeV
deriving DecidableEq, Repr

/-- The resolution variants of v1 `SymbolData` subclasses, with object
references to other symbol-data nodes represented by their cache
keys. -/
inductive SDKind where
  | standard
  | aliasK (aliasedKey : String) (renames : Bool)
  | methodK (baseKeys : List String) (sourceFile : SourceFile)
  | unionOrIntersectionK (memberKeys : List String) (sourceFile : SourceFile)
  | transientK
deriving DecidableEq, Repr

/-- Modelled from the spec (src/symbol.ts is not in the sources): the
Symbol Graph Node — resolution variant, accumulated definitions and
references, attached monikers, definition infos, and hover texts. -/
structure SymbolData where
  kind : SDKind
  document : String
  defInfos : List DefinitionInfo
  monikers : List String
  defs : List (String × RangeV)
  refs : List (String × RangeV)
  hovers : List String
deriving DecidableEq, Repr

namespace SymbolData

/-- `symbolData.hasDefinitionInfo(info)`: equality membership test. -/
def hasDefinitionInfo (sd : SymbolData) (info : DefinitionInfo) : Bool :=
  sd.defInfos.contains info

/-- `symbolData.addDefinitionInfo(info)`. -/
def addDefinitionInfo (sd : SymbolData) (info : DefinitionInfo) : SymbolData :=
  { sd with defInfos := sd.defInfos ++ [info] }

/-- `symbolData.addMoniker(moniker)`. -/
def addMoniker (sd : SymbolData) (m : String) : SymbolData :=
  { sd with monikers := sd.monikers ++ [m] }

/-- `symbolData.addDefinition(sourceFile, definition)`. -/
def addDefinition (sd : SymbolData) (file : SourceFile) (v : RangeV) : SymbolData :=
  { sd with defs := sd.defs ++ [(file.fileName, v)] }

/-- `symbolData.addReference(sourceFile, reference, property)`. -/
def addReference (sd : SymbolData) (file : SourceFile) (v : RangeV) : SymbolData :=
  { sd with refs := sd.refs ++ [(file.fileName, v)] }

/-- `symbolData.addHover(hover)`. -/
def addHover (sd : SymbolData) (h : String) : SymbolData :=
  { sd with hovers := sd.hovers ++ [h] }

end SymbolData

/-- Order-preserving deduplication of source files; modelled from the
spec (src/typescripts.ts is not in the sources):
`tss.getUniqueSourceFiles`. -/
def uniqueSourceFiles : List SourceFile → List SourceFile
  | [] => []
  | f :: rest =>
      let tail := uniqueSourceFiles rest
      f :: tail.filter (fun g => g ≠ f)

/-- Variant dispatch of `SymbolData.getDeclarations` (src/symbol.ts is
not in the sources; modelled from the spec: "standard/alias/method
defer to the oracle's declaration list; composite/transient use only
the use-site node as its own declaration", corroborated by
v2 `Indexer.getDeclarations`). -/
def sdGetDeclarations (sd : SymbolData) (info : SymbolInfo) (node : Option Node) : List Node :=
  match sd.kind with
  | SDKind.unionOrIntersectionK _ _ => node.toList
  | SDKind.transientK => node.toList
  | _ => info.declarations.getD []

/-- Variant dispatch of `SymbolData.getSourceFiles` (src/symbol.ts is
not in the sources; modelled from the spec, corroborated by
v2 `Indexer.getSourceFiles`). -/
def sdGetSourceFiles (sd : SymbolData) (info : SymbolInfo) (node : Option Node) : List SourceFile :=
  match sd.kind with
  | SDKind.unionOrIntersectionK _ _ => (node.map Node.sourceFile).toList
  | SDKind.transientK => (node.map Node.sourceFile).toList
  | _ => uniqueSourceFiles ((info.declarations.getD []).map Node.sourceFile)

/-- Variant dispatch of `SymbolData.getText`, following the in-source
v2 `Indexer.getText`. -/
def sdGetText (sd : SymbolData) (info : SymbolInfo) (declaration : Node) : Option (String × Node) :=
  match sd.kind with
  | SDKind.unionOrIntersectionK _ _ => some (declaration.text, declaration)
  | _ =>
    match declaration.name with
    | some nameNode => some (nameNode.text, nameNode)
    | none =>
      if info.isValueModule ∧ declaration.kind = SynKind.sourceFileKind then
        some ("", declaration)
      else
        none

/-- The mutable instance state of the v1 `Indexer`. -/
structure IState where
  symbolDatas : List (String × SymbolData)
  documentDatas : List (String × DocumentData)
  currentSourceFile : Option SourceFile
  currentDocumentData : Option String
  emitted : List EmitEvent
deriving DecidableEq, Repr

/-- Append one emission event. -/
def emit (s : IState) (e : EmitEvent) : IState :=
  { s with emitted := s.emitted ++ [e] }

/-- `documentData.addRange(range)` on the document cached under
`key`. -/
def docAddRange (s : IState) (key : String) (v : RangeV) : IState :=
  { s with documentDatas :=
      s.documentDatas.map (fun p =>
        if p.1 = key then (p.1, { p.2 with ranges := p.2.ranges ++ [v] }) else p) }

/-- The pure part of document-data creation: `Indexer.computeMonikerPath`
(the private method) for project files. -/
def computeMonikerPathMethod (ctx : Ctx) (sourceFile : SourceFile) : Option String :=
  if ¬sourceFile.isDeclarationFile ∨
     ((ctx.rootDir ++ "/").isPrefixOf sourceFile.fileName) then
    tssComputeMonikerPath ctx.projectRoot
      (toOutLocation sourceFile.fileName ctx.rootDir ctx.outDir)
  else
    none

/-- The document data `Indexer.getOrCreateDocumentData` constructs on a
cache miss (pure part). -/
def mkDocumentData (ctx : Ctx) (sourceFile : SourceFile) : DocumentData :=
  let externalLibrary := ctx.isExternalLib sourceFile.fileName
  let monikerPath :=
    if externalLibrary then tssComputeMonikerPath ctx.projectRoot sourceFile.fileName
    else computeMonikerPathMethod ctx sourceFile
  { document := sourceFile.fileName
    externalLibrary := externalLibrary
    monikerPath := monikerPath
    ranges := [] }

/-- `Indexer.getOrCreateDocumentData`: returns the cached document data
for the file, creating, beginning and caching it on a miss. -/
def getOrCreateDocumentData (ctx : Ctx) (sourceFile : SourceFile) (s : IState) :
    DocumentData × IState :=
  match s.documentDatas.lookup sourceFile.fileName with
  | some cachedDocumentData => (cachedDocumentData, s)
  | none =>
    let documentData := mkDocumentData ctx sourceFile
    let s := emit s (EmitEvent.documentVertex sourceFile.fileName)
    let s := emit s (EmitEvent.beginDocument sourceFile.fileName)
    let s := { s with documentDatas := (sourceFile.fileName, documentData) :: s.documentDatas }
    (documentData, s)

/-- The three states of the `monikerPath` loop variable in
`Indexer.getOrCreateSymbolData` (`string | undefined | null`). -/
inductive MPState where
  | undef
  | path (p : String)
  | voided
deriving DecidableEq, Repr

/-- One iteration of the moniker-path loop of
`Indexer.getOrCreateSymbolData` (lines 532-540). -/
def monikerPathStep (acc : MPState × Bool) (docMonikerPath : Option String)
    (docExternalLibrary : Bool) : MPState × Bool :=
  match acc.1 with
  | MPState.undef =>
      (match docMonikerPath with
       | some p => MPState.path p
       | none => MPState.undef,
       docExternalLibrary)
  | MPState.path p =>
      if docMonikerPath ≠ some p then (MPState.voided, acc.2) else acc
  | MPState.voided =>
      (MPState.voided, acc.2)

/-- The moniker-path loop of `Indexer.getOrCreateSymbolData`: fetches
each source file's document data and folds `monikerPathStep`. -/
def monikerPathLoop (ctx : Ctx) : List SourceFile → (MPState × Bool) → IState →
    (MPState × Bool) × IState
  | [], acc, s => (acc, s)
  | sourceFile :: rest, acc, s =>
    let (documentData, s) := getOrCreateDocumentData ctx sourceFile s
    monikerPathLoop ctx rest
      (monikerPathStep acc documentData.monikerPath documentData.externalLibrary) s

/-- The post-loop fixup `if (monikerPath === null) { monikerPath =
undefined; externalLibrary = false }`, returning the final
`(monikerPath, externalLibrary)` pair. -/
def finalizeMonikerPath (acc : MPState × Bool) : Option String × Bool :=
  match acc.1 with
  | MPState.voided => (none, false)
  | MPState.undef => (none, acc.2)
  | MPState.path p => (some p, acc.2)

/-- Result of a fallible, fuelled indexer operation: a value with the
updated state, a raised error, or fuel exhaustion. -/
inductive Res (α : Type) where
  | ok (a : α) (s : IState)
  | err (msg : String)
  | outOfFuel
deriving DecidableEq, Repr

/-- A freshly allocated symbol-data node (constructor of the
`SymbolData` class hierarchy). -/
def newSD (kind : SDKind) (document : String) : SymbolData :=
  ⟨kind, document, [], [], [], [], []⟩

/-- `Indexer.emitDefinition`: emits a definition range, appends it to
the declaring document, and records it on the symbol-data node. -/
def emitDefinition (ctx : Ctx) (declaration : Node) (sd : SymbolData)
    (text : String) (node : Node) (s : IState) : SymbolData × IState :=
  let sourceFile := declaration.sourceFile
  let (documentData, s) := getOrCreateDocumentData ctx sourceFile s
  let range := if declaration.kind = SynKind.sourceFileKind then phantomRange
               else rangeFromNode sourceFile node
  let tag := RangeTag.definitionTag text ((symbolKindMap declaration.kind).getD 7)
      (rangeFromNode sourceFile declaration)
  let definition : RangeV := ⟨range, tag⟩
  let s := emit s (EmitEvent.rangeVertex definition)
  let s := docAddRange s documentData.document definition
  let sd := sd.addDefinition sourceFile definition
  let sd := sd.addDefinitionInfo (createDefinitionInfo sourceFile node)
  let sd :=
    match declaration.name with
    | some nameNode =>
      match ctx.hover nameNode with
      | some h => sd.addHover h
      | none => sd
    | none => sd
  (sd, s)

/-- The definition-emission loop at the end of
`Indexer.getOrCreateSymbolData` (`for declaration of
symbolData.getDeclarations(...)`). -/
def emitDefinitionsLoop (ctx : Ctx) (info : SymbolInfo) :
    List Node → SymbolData → IState → SymbolData × IState
  | [], sd, s => (sd, s)
  | declaration :: rest, sd, s =>
    match sdGetText sd info declaration with
    | none => emitDefinitionsLoop ctx info rest sd s
    | some (text, node) =>
      let (sd, s) := emitDefinition ctx declaration sd text node s
      emitDefinitionsLoop ctx info rest sd s

mutual

/-- `Indexer.getOrCreateSymbolData`: the Symbol Graph Node Cache
entry point.  Returns the key of the (cached or newly built)
symbol-data node. -/
def getOrCreateSymbolData (ctx : Ctx) (fuel : Nat) (symbol : SymbolId)
    (node : Option Node) (s : IState) : Res String :=
  match s.currentDocumentData with
  | none => Res.err "Illegal symbol context"
  | some _ =>
    let id := (ctx.symbolInfo symbol).key
    match s.symbolDatas.lookup id with
    | some _ => Res.ok id s
    | none =>
      match fuel with
      | 0 => Res.outOfFuel
      | fuel + 1 =>
        match makeSymbolData ctx fuel symbol node s with
        | Res.err m => Res.err m
        | Res.outOfFuel => Res.outOfFuel
        | Res.ok symbolData s =>
          let s := emit s EmitEvent.beginSymbol
          let info := ctx.symbolInfo symbol
          let sourceFiles := sdGetSourceFiles symbolData info node
          let locationKind := ctx.getLocationKind sourceFiles
          let exportPath := ctx.getExportPath symbol locationKind
          let (acc, s) := monikerPathLoop ctx sourceFiles (MPState.undef, false) s
          let (monikerPath, externalLibrary) := finalizeMonikerPath acc
          let monikerIdentifier : Option String :=
            if info.isSourceFileSymbol ∧ monikerPath.isSome then
              some (createMonikerIdentifier monikerPath none)
            else
              match exportPath with
              | some ep =>
                if ep ≠ "" then some (createMonikerIdentifier monikerPath (some ep))
                else none
              | none => none
          let (symbolData, s) :=
            match monikerIdentifier with
            | none => (symbolData, s)
            | some ident =>
              if externalLibrary then
                (symbolData.addMoniker ident, emit s (EmitEvent.importMoniker ident))
              else
                (symbolData.addMoniker ident, emit s (EmitEvent.exportMoniker ident))
          let (symbolData, s) :=
            emitDefinitionsLoop ctx info (sdGetDeclarations symbolData info node) symbolData s
          let s := { s with symbolDatas := (id, symbolData) :: s.symbolDatas }
          Res.ok id s
termination_by 8 * fuel

/-- `Indexer.makeSymbolData`: classifies the symbol and allocates the
matching symbol-data variant, recursing into related symbols. -/
def makeSymbolData (ctx : Ctx) (fuel : Nat) (symbol : SymbolId)
    (node : Option Node) (s : IState) : Res SymbolData :=
  match fuel with
  | 0 => Res.outOfFuel
  | fuel + 1 =>
    match s.currentDocumentData, s.currentSourceFile with
    | some documentKey, some sourceFile =>
      let info := ctx.symbolInfo symbol
      if info.isTransient then
        match (if ctx.isComposite symbol node then ctx.compositeSymbols symbol node else none) with
        | some composites =>
          match goscdList ctx fuel composites s with
          | Res.err m => Res.err m
          | Res.outOfFuel => Res.outOfFuel
          | Res.ok memberKeys s =>
            Res.ok (newSD (SDKind.unionOrIntersectionK memberKeys sourceFile) documentKey) s
        | none =>
          if info.onlyTransientFlags then
            Res.ok (newSD SDKind.transientK documentKey) s
          else
            makeSymbolDataRest ctx fuel symbol documentKey sourceFile s
      else
        makeSymbolDataRest ctx fuel symbol documentKey sourceFile s
    | _, _ => Res.err "Illegal symbol context"
termination_by 8 * fuel + 2

/-- The alias/method/standard tail of `Indexer.makeSymbolData` (the
code after the transient branch falls through to here). -/
def makeSymbolDataRest (ctx : Ctx) (fuel : Nat) (symbol : SymbolId)
    (documentKey : String) (sourceFile : SourceFile) (s : IState) : Res SymbolData :=
  let info := ctx.symbolInfo symbol
  if info.flagsAlias then
    let aliased := info.aliasedSymbol
    match getOrCreateSymbolData ctx fuel aliased none s with
    | Res.err m => Res.err m
    | Res.outOfFuel => Res.outOfFuel
    | Res.ok aliasedKey s =>
      Res.ok (newSD (SDKind.aliasK aliasedKey (info.name ≠ (ctx.symbolInfo aliased).name)) documentKey) s
  else if info.isMethod then
    let baseMembers :=
      match info.parent with
      | some container => ctx.findBaseMembers container info.name
      | none => []
    match goscdList ctx fuel baseMembers s with
    | Res.err m => Res.err m
    | Res.outOfFuel => Res.outOfFuel
    | Res.ok baseKeys s =>
      Res.ok (newSD (SDKind.methodK baseKeys sourceFile) documentKey) s
  else
    Res.ok (newSD SDKind.standard documentKey) s
termination_by 8 * fuel + 5

/-- `members.map((member) => this.getOrCreateSymbolData(member))`:
resolves a list of related symbols to their symbol-data keys. -/
def goscdList (ctx : Ctx) (fuel : Nat) (syms : List SymbolId) (s : IState) :
    Res (List String) :=
  match syms with
  | [] => Res.ok [] s
  | sym :: rest =>
    match fuel with
    | 0 => Res.outOfFuel
    | fuel + 1 =>
      match getOrCreateSymbolData ctx fuel sym none s with
      | Res.err m => Res.err m
      | Res.outOfFuel => Res.outOfFuel
      | Res.ok key s =>
        match goscdList ctx fuel rest s with
        | Res.err m => Res.err m
        | Res.outOfFuel => Res.outOfFuel
        | Res.ok keys s => Res.ok (key :: keys) s
termination_by 8 * fuel + 4

end

/-- `Indexer.getSymbolAtLocation` (the private method with the
`tss.getSymbolFromNode` fallback). -/
def getSymbolAtLocationM (ctx : Ctx) (node : Node) : Option SymbolId :=
  match ctx.symbolAtLocation node with
  | some r => some r
  | none => ctx.symbolFromNode node

/-- `Indexer.getExportSymbolName`: strips surrounding quotes and
escapes `.` as `..`. -/
def getExportSymbolName (ctx : Ctx) (symbol : SymbolId) : String :=
  let escapedName := (ctx.symbolInfo symbol).name
  let escapedName :=
    if escapedName.startsWith "\"" ∨ escapedName.startsWith "'" then
      (escapedName.drop 1).dropRight 1
    else escapedName
  escapedName.replace "." ".."

/-- `Indexer.exportSymbol`: its entire body is commented out in the
source, so it is a no-op. -/
def exportSymbol (s : IState) : IState := s

/-- `Indexer.visitSymbol`: records a reference occurrence for the
symbol at the node unless the node is an already-recorded definition
site. -/
def visitSymbol (ctx : Ctx) (fuel : Nat) (node : Node) (s : IState) : Res Unit :=
  match s.currentSourceFile, s.currentDocumentData with
  | some currentSourceFile, some currentDocKey =>
    match ctx.symbolAtLocation node with
    | none => Res.ok () s
    | some symbol =>
      match getOrCreateSymbolData ctx fuel symbol (some node) s with
      | Res.err m => Res.err m
      | Res.outOfFuel => Res.outOfFuel
      | Res.ok sdKey s =>
        match s.symbolDatas.lookup sdKey with
        | none => Res.ok () s
        | some symbolData =>
          let definitionInfo := createDefinitionInfo currentSourceFile node
          if symbolData.hasDefinitionInfo definitionInfo then
            Res.ok () s
          else
            let reference : RangeV :=
              ⟨rangeFromNode currentSourceFile node, RangeTag.referenceTag node.text⟩
            let s := emit s (EmitEvent.rangeVertex reference)
            let s := docAddRange s currentDocKey reference
            let s := { s with symbolDatas :=
              s.symbolDatas.map (fun p =>
                if p.1 = sdKey then (p.1, p.2.addReference currentSourceFile reference)
                else p) }
            Res.ok () s
  | _, _ => Res.ok () s

/-- The `for element of declarationNode.exportClause.elements` loop of
`Indexer.postVisit` (named-exports case); the mid-loop `return` on a
missing moniker path aborts the remaining elements. -/
def exportElementsLoop (ctx : Ctx) (fuel : Nat) (cddKey : String) :
    List (Node × Option Node) → IState → Res Unit
  | [], s => Res.ok () s
  | (name, propertyName) :: rest, s =>
    match getSymbolAtLocationM ctx name with
    | none => exportElementsLoop ctx fuel cddKey rest s
    | some symbol =>
      match (s.documentDatas.lookup cddKey).bind (fun dd => dd.monikerPath) with
      | none => Res.ok () s
      | some _ =>
        match getOrCreateSymbolData ctx fuel symbol none s with
        | Res.err m => Res.err m
        | Res.outOfFuel => Res.outOfFuel
        | Res.ok _ s =>
          let info := ctx.symbolInfo symbol
          let aliasedSymbol : Option SymbolId :=
            if info.flagsAlias then some info.aliasedSymbol
            else
              match propertyName with
              | some pn => getSymbolAtLocationM ctx pn
              | none => none
          match aliasedSymbol with
          | none => exportElementsLoop ctx fuel cddKey rest s
          | some _ =>
            exportElementsLoop ctx fuel cddKey rest (exportSymbol s)

/-- `Indexer.postVisit`: clears the document context after a source
file and post-processes export assignments and export declarations. -/
def postVisit (ctx : Ctx) (fuel : Nat) (node : Node) (s : IState) : Res Unit :=
  match node.kind with
  | SynKind.sourceFileKind =>
    Res.ok () { s with currentSourceFile := none, currentDocumentData := none }
  | SynKind.exportAssignment =>
    match s.currentDocumentData with
    | none => Res.err "Illegal statement context"
    | some cddKey =>
      match getSymbolAtLocationM ctx node with
      | none => Res.ok () s
      | some symbol =>
        match getOrCreateSymbolData ctx fuel symbol none s with
        | Res.err m => Res.err m
        | Res.outOfFuel => Res.outOfFuel
        | Res.ok _ s =>
          match (s.documentDatas.lookup cddKey).bind (fun dd => dd.monikerPath) with
          | none => Res.ok () s
          | some _ =>
            match node.expression with
            | none => Res.ok () s
            | some expr =>
              match getSymbolAtLocationM ctx expr with
              | none => Res.ok () s
              | some _ => Res.ok () (exportSymbol s)
  | SynKind.exportDeclaration =>
    match s.currentDocumentData with
    | none => Res.err "Illegal statement context"
    | some cddKey =>
      match node.namedExportElements with
      | some elements => exportElementsLoop ctx fuel cddKey elements s
      | none =>
        match node.moduleSpecifier with
        | none => Res.ok () s
        | some moduleSpecifier =>
          match getSymbolAtLocationM ctx node with
          | none => Res.ok () s
          | some symbol =>
            if ¬(ctx.symbolInfo symbol).flagsExportStar then Res.ok () s
            else
              match (s.documentDatas.lookup cddKey).bind (fun dd => dd.monikerPath) with
              | none => Res.ok () s
              | some _ =>
                match getOrCreateSymbolData ctx fuel symbol none s with
                | Res.err m => Res.err m
                | Res.outOfFuel => Res.outOfFuel
                | Res.ok _ s =>
                  match getSymbolAtLocationM ctx moduleSpecifier with
                  | none => Res.ok () s
                  | some aliasedSymbol =>
                    if ¬(ctx.symbolInfo aliasedSymbol).isSourceFileSymbol then Res.ok () s
                    else
                      match getOrCreateSymbolData ctx fuel aliasedSymbol none s with
                      | Res.err m => Res.err m
                      | Res.outOfFuel => Res.outOfFuel
                      | Res.ok _ s => Res.ok () (exportSymbol s)
  | _ => Res.ok () s

/-! ### Shared concrete fixtures used by witnesses and counterexamples -/

/-- A plain symbol with key `"k"` and no special flags. -/
def plainInfo : SymbolInfo :=
  { key := "k", name := "x", flagsAlias := false, flagsExportStar := false,
    isTransient := false, onlyTransientFlags := false, isMethod := false,
    isTypeAlias := false, parent := none, aliasedSymbol := 0,
    declarations := some [], isSourceFileSymbol := false, isValueModule := false }

/-- An oracle where every symbol is the plain symbol. -/
def plainCtx : Ctx :=
  { symbolInfo := fun _ => plainInfo
    isComposite := fun _ _ => false
    compositeSymbols := fun _ _ => none
    findBaseMembers := fun _ _ => []
    getLocationKind := fun _ => 0
    getExportPath := fun _ _ => none
    symbolAtLocation := fun _ => none
    symbolFromNode := fun _ => none
    hover := fun _ => none
    isExternalLib := fun _ => false
    projectRoot := "p"
    rootDir := "p/src"
    outDir := "p/out" }

def sampleSourceFile : SourceFile := ⟨"a.ts", false⟩

def sampleNode (k : SynKind) : Node :=
  Node.mk sampleSourceFile ⟨⟨0, 0⟩, ⟨0, 1⟩⟩ k "x" none none none none

/-- A run state holding one cached symbol-data node under key `"k"`
and an active document context. -/
def cachedState : IState :=
  { symbolDatas := [("k", newSD SDKind.standard "a.ts")]
    documentDatas := [("a.ts", mkDocumentData plainCtx sampleSourceFile)]
    currentSourceFile := some sampleSourceFile
    currentDocumentData := some "a.ts"
    emitted := [] }

/-- A run state with no current document context. -/
def noDocState : IState :=
  { symbolDatas := [], documentDatas := [], currentSourceFile := none,
    currentDocumentData := none, emitted := [] }

/-! ### C1: the symbol cache deduplicates nodes -/

/-- Shared helper: a cache hit in `getOrCreateSymbolData` returns the
cached key without touching the state. -/
theorem goscd_hit (ctx : Ctx) (fuel : Nat) (symbol : SymbolId)
    (node : Option Node) (s : IState) (d : String) (sd : SymbolData)
    (hd : s.currentDocumentData = some d)
    (hc : s.symbolDatas.lookup (ctx.symbolInfo symbol).key = some sd) :
    getOrCreateSymbolData ctx fuel symbol node s =
      Res.ok (ctx.symbolInfo symbol).key s := by
  simp only [getOrCreateSymbolData, hd, hc]

/-- C1.  For every run and every distinct symbol key, at most one
symbol-data node is created: a `getOrCreateSymbolData` call whose
symbol key is already bound in the `symbolDatas` map returns the
previously created node and leaves the whole indexer state untouched —
no new node, no emission (hence no new definition), and no new
moniker. -/
theorem getOrCreateSymbolData_cache_hit (ctx : Ctx) (fuel : Nat) (symbol : SymbolId)
    (node : Option Node) (s : IState) (d : String) (sd : SymbolData)
    (hd : s.currentDocumentData = some d)
    (hc : s.symbolDatas.lookup (ctx.symbolInfo symbol).key = some sd) :
    getOrCreateSymbolData ctx fuel symbol node s =
      Res.ok (ctx.symbolInfo symbol).key s :=
  goscd_hit ctx fuel symbol node s d sd hd hc

/-- Witness for C1 at a concrete cached state. -/
theorem getOrCreateSymbolData_cache_hit_witness :
    cachedState.currentDocumentData = some "a.ts" ∧
    cachedState.symbolDatas.lookup (plainCtx.symbolInfo 0).key =
      some (newSD SDKind.standard "a.ts") ∧
    getOrCreateSymbolData plainCtx 1 0 none cachedState = Res.ok "k" cachedState :=
  ⟨rfl, by decide,
   getOrCreateSymbolData_cache_hit plainCtx 1 0 none cachedState "a.ts"
     (newSD SDKind.standard "a.ts") rfl (by decide)⟩

/-! ### C7: missing document context is a fatal error -/

/-- C7.  Visiting an export assignment or export declaration in
`postVisit`, or calling `getOrCreateSymbolData`, while no current
document context is active raises `Illegal statement context` /
`Illegal symbol context` immediately. -/
theorem illegal_context_is_fatal (ctx : Ctx) (fuel : Nat) (node : Node) (s : IState)
    (h : s.currentDocumentData = none) :
    (node.kind = SynKind.exportAssignment →
      postVisit ctx fuel node s = Res.err "Illegal statement context") ∧
    (node.kind = SynKind.exportDeclaration →
      postVisit ctx fuel node s = Res.err "Illegal statement context") ∧
    (∀ (symbol : SymbolId) (usesite : Option Node),
      getOrCreateSymbolData ctx fuel symbol usesite s = Res.err "Illegal symbol context") := by
  refine ⟨fun hk => ?_, fun hk => ?_, fun symbol usesite => ?_⟩
  · unfold postVisit
    rw [hk, h]
  · unfold postVisit
    rw [hk, h]
  · unfold getOrCreateSymbolData
    rw [h]

/-- Witness for C7 at a concrete context-free state. -/
theorem illegal_context_is_fatal_witness :
    noDocState.currentDocumentData = none ∧
    postVisit plainCtx 1 (sampleNode SynKind.exportAssignment) noDocState =
      Res.err "Illegal statement context" ∧
    postVisit plainCtx 1 (sampleNode SynKind.exportDeclaration) noDocState =
      Res.err "Illegal statement context" ∧
    getOrCreateSymbolData plainCtx 1 0 none noDocState =
      Res.err "Illegal symbol context" :=
  ⟨rfl,
   (illegal_context_is_fatal plainCtx 1 (sampleNode SynKind.exportAssignment)
      noDocState rfl).1 rfl,
   (illegal_context_is_fatal plainCtx 1 (sampleNode SynKind.exportDeclaration)
      noDocState rfl).2.1 rfl,
   (illegal_context_is_fatal plainCtx 1 (sampleNode SynKind.exportAssignment)
      noDocState rfl).2.2 0 none⟩

/-! ### C2: the cache slot is NOT reserved before recursive descent

In the source, `this.symbolDatas.set(id, symbolData)` runs only after
`makeSymbolData` has returned, i.e. after every recursive
`getOrCreateSymbolData` call made for related symbols.  A re-entrant
call for the same key therefore misses the cache, and a cyclic alias
chain recurses without bound: with a self-aliasing oracle the run
exhausts every amount of fuel. -/

/-- A symbol that the oracle reports as an alias of itself (a cyclic
alias chain). -/
def selfAliasInfo : SymbolInfo :=
  { plainInfo with flagsAlias := true, aliasedSymbol := 0 }

def selfAliasCtx : Ctx :=
  { plainCtx with symbolInfo := fun _ => selfAliasInfo }

/-- A run state with an active document context and an empty symbol
cache. -/
def emptyCacheState : IState :=
  { symbolDatas := [], documentDatas := [], currentSourceFile := some sampleSourceFile,
    currentDocumentData := some "a.ts", emitted := [] }

/-- C2 (refuting the claimed reservation).  Because the cache slot for
a key is populated only after `makeSymbolData` returns, the re-entrant
`getOrCreateSymbolData` call made while resolving a cyclic alias never
hits the cache: on the self-alias oracle the computation consumes any
amount of fuel and never completes, where eager slot reservation would
terminate with a cache hit. -/
theorem reentrant_resolution_never_hits_cache (fuel : Nat) :
    ∀ (s : IState) (node : Option Node),
      s.symbolDatas.lookup "k" = none →
      s.currentDocumentData.isSome = true →
      s.currentSourceFile.isSome = true →
      getOrCreateSymbolData selfAliasCtx fuel 0 node s = Res.outOfFuel := by
  suffices h : ∀ (fuel : Nat) (s : IState) (node : Option Node),
      s.symbolDatas.lookup "k" = none →
      s.currentDocumentData.isSome = true →
      s.currentSourceFile.isSome = true →
      getOrCreateSymbolData selfAliasCtx fuel 0 node s = Res.outOfFuel ∧
      makeSymbolData selfAliasCtx fuel 0 node s = Res.outOfFuel by
    intro s node h1 h2 h3
    exact (h fuel s node h1 h2 h3).1
  intro fuel
  induction fuel with
  | zero =>
    intro s node h1 h2 h3
    obtain ⟨d, hd⟩ := Option.isSome_iff_exists.mp h2
    constructor
    · simp only [getOrCreateSymbolData, hd]
      have hk : (selfAliasCtx.symbolInfo 0).key = "k" := rfl
      rw [hk, h1]
    · simp only [makeSymbolData]
  | succ fuel IH =>
    intro s node h1 h2 h3
    obtain ⟨d, hd⟩ := Option.isSome_iff_exists.mp h2
    obtain ⟨f, hf⟩ := Option.isSome_iff_exists.mp h3
    have hg : getOrCreateSymbolData selfAliasCtx fuel 0 none s = Res.outOfFuel :=
      (IH s none h1 h2 h3).1
    have hm : makeSymbolData selfAliasCtx fuel 0 node s = Res.outOfFuel :=
      (IH s node h1 h2 h3).2
    constructor
    · simp only [getOrCreateSymbolData, hd]
      have hk : (selfAliasCtx.symbolInfo 0).key = "k" := rfl
      rw [hk, h1, hm]
    · simp only [makeSymbolData, hd, hf]
      have ht : (selfAliasCtx.symbolInfo 0).isTransient = false := rfl
      rw [ht]
      simp only [Bool.false_eq_true, if_false, makeSymbolDataRest]
      have ha : (selfAliasCtx.symbolInfo 0).flagsAlias = true := rfl
      rw [ha]
      simp only [if_true]
      rw [show (selfAliasCtx.symbolInfo 0).aliasedSymbol = 0 from rfl, hg]

/-- Witness for C2 at a concrete state and fuel. -/
theorem reentrant_resolution_never_hits_cache_witness :
    emptyCacheState.symbolDatas.lookup "k" = none ∧
    emptyCacheState.currentDocumentData.isSome = true ∧
    emptyCacheState.currentSourceFile.isSome = true ∧
    getOrCreateSymbolData selfAliasCtx 5 0 none emptyCacheState = Res.outOfFuel :=
  ⟨rfl, rfl, rfl,
   reentrant_resolution_never_hits_cache 5 emptyCacheState none rfl rfl rfl⟩

/-! ### C4: duplicate definition sites are suppressed -/

/-- A reference node whose definition info is already recorded. -/
def dupNode : Node := sampleNode SynKind.identifier

def dupSD : SymbolData :=
  (newSD SDKind.standard "a.ts").addDefinitionInfo
    (createDefinitionInfo sampleSourceFile dupNode)

def dupCtx : Ctx := { plainCtx with symbolAtLocation := fun _ => some 0 }

def dupState : IState := { cachedState with symbolDatas := [("k", dupSD)] }

/-- C4.  Visiting a node whose `(file, range)` definition info is
already recorded on the symbol's node is suppressed: `visitSymbol`
emits no reference range, appends nothing to the document, and leaves
the state untouched; the duplicate test is the definition-info
equality check. -/
theorem visitSymbol_suppresses_recorded_definition (ctx : Ctx) (fuel : Nat)
    (node : Node) (s : IState) (sf : SourceFile) (dk : String)
    (sym : SymbolId) (sd : SymbolData)
    (hsf : s.currentSourceFile = some sf)
    (hdk : s.currentDocumentData = some dk)
    (hsym : ctx.symbolAtLocation node = some sym)
    (hc : s.symbolDatas.lookup (ctx.symbolInfo sym).key = some sd)
    (hdef : sd.hasDefinitionInfo (createDefinitionInfo sf node) = true) :
    visitSymbol ctx fuel node s = Res.ok () s := by
  have hg := goscd_hit ctx fuel sym (some node) s dk sd hdk hc
  simp only [visitSymbol, hsf, hdk, hsym, hg, hc, hdef, if_true]

/-- Witness for C4 at a concrete duplicated definition site. -/
theorem visitSymbol_suppresses_recorded_definition_witness :
    dupState.currentSourceFile = some sampleSourceFile ∧
    dupState.currentDocumentData = some "a.ts" ∧
    dupCtx.symbolAtLocation dupNode = some 0 ∧
    dupState.symbolDatas.lookup (dupCtx.symbolInfo 0).key = some dupSD ∧
    dupSD.hasDefinitionInfo (createDefinitionInfo sampleSourceFile dupNode) = true ∧
    visitSymbol dupCtx 1 dupNode dupState = Res.ok () dupState :=
  ⟨rfl, rfl, rfl, by decide, by decide,
   visitSymbol_suppresses_recorded_definition dupCtx 1 dupNode dupState
     sampleSourceFile "a.ts" 0 dupSD rfl rfl (by decide) (by decide) (by decide)⟩

/-! ### C3: conflicting moniker paths degrade to "no moniker" -/

/-- The `(monikerPath, externalLibrary)` pairs of the document datas
fetched, in order, by the moniker-path loop. -/
def observedDocFields (ctx : Ctx) : List SourceFile → IState → List (Option String × Bool)
  | [], _ => []
  | f :: rest, s =>
    let (dd, s') := getOrCreateDocumentData ctx f s
    (dd.monikerPath, dd.externalLibrary) :: observedDocFields ctx rest s'

/-- `monikerPathStep` uncurried over an observed pair. -/
def mpStepP (a : MPState × Bool) (pb : Option String × Bool) : MPState × Bool :=
  monikerPathStep a pb.1 pb.2

/-- The pure accumulator evolution of the moniker-path loop. -/
def mpFold (l : List (Option String × Bool)) (a : MPState × Bool) : MPState × Bool :=
  l.foldl mpStepP a

theorem mpFold_voided : ∀ (l : List (Option String × Bool)) (e : Bool),
    mpFold l (MPState.voided, e) = (MPState.voided, e)
  | [], _ => rfl
  | pb :: rest, e => by
    have h : mpStepP (MPState.voided, e) pb = (MPState.voided, e) := rfl
    show mpFold rest (mpStepP (MPState.voided, e) pb) = (MPState.voided, e)
    rw [h]
    exact mpFold_voided rest e

theorem mpFold_path : ∀ (l : List (Option String × Bool)) (p : String) (e : Bool),
    mpFold l (MPState.path p, e) =
      if ∀ pb ∈ l, pb.1 = some p then (MPState.path p, e) else (MPState.voided, e)
  | [], p, e => by simp [mpFold]
  | pb :: rest, p, e => by
    by_cases h : pb.1 = some p
    · have hstep : mpStepP (MPState.path p, e) pb = (MPState.path p, e) := by
        simp [mpStepP, monikerPathStep, h]
      have hiff : (∀ x ∈ pb :: rest, x.1 = some p) ↔ (∀ x ∈ rest, x.1 = some p) := by
        constructor
        · intro hc x hx
          exact hc x (List.mem_cons_of_mem pb hx)
        · intro hc x hx
          rcases List.mem_cons.mp hx with hx1 | hx2
          · rw [hx1]; exact h
          · exact hc x hx2
      show mpFold rest (mpStepP (MPState.path p, e) pb) = _
      rw [hstep, mpFold_path rest p e]
      by_cases hall : ∀ x ∈ rest, x.1 = some p
      · rw [if_pos hall, if_pos (hiff.mpr hall)]
      · rw [if_neg hall, if_neg (fun hc => hall (hiff.mp hc))]
    · have hstep : mpStepP (MPState.path p, e) pb = (MPState.voided, e) := by
        simp [mpStepP, monikerPathStep, h]
      show mpFold rest (mpStepP (MPState.path p, e) pb) = _
      rw [hstep, mpFold_voided]
      rw [if_neg (fun hc => h (hc pb (List.mem_cons_self pb rest)))]

theorem mpFold_conflict : ∀ (l : List (Option String × Bool)) (e : Bool) (p q : String),
    p ≠ q → some p ∈ l.map Prod.fst → some q ∈ l.map Prod.fst →
    (mpFold l (MPState.undef, e)).1 = MPState.voided
  | [], _, p, _, _, hp, _ => by simp at hp
  | pb :: rest, e, p, q, hpq, hp, hq => by
    rw [List.map_cons] at hp hq
    cases hv : pb.1 with
    | none =>
      have hstep : mpStepP (MPState.undef, e) pb = (MPState.undef, pb.2) := by
        simp [mpStepP, monikerPathStep, hv]
      show (mpFold rest (mpStepP (MPState.undef, e) pb)).1 = MPState.voided
      rw [hstep]
      have hp' : some p ∈ rest.map Prod.fst := by
        rcases List.mem_cons.mp hp with h1 | h1
        · rw [hv] at h1; simp at h1
        · exact h1
      have hq' : some q ∈ rest.map Prod.fst := by
        rcases List.mem_cons.mp hq with h1 | h1
        · rw [hv] at h1; simp at h1
        · exact h1
      exact mpFold_conflict rest pb.2 p q hpq hp' hq'
    | some r =>
      have hstep : mpStepP (MPState.undef, e) pb = (MPState.path r, pb.2) := by
        simp [mpStepP, monikerPathStep, hv]
      show (mpFold rest (mpStepP (MPState.undef, e) pb)).1 = MPState.voided
      rw [hstep, mpFold_path rest r pb.2]
      have hwitness : ∃ w : String, w ≠ r ∧ some w ∈ rest.map Prod.fst := by
        by_cases hpr : p = r
        · have hqr : q ≠ r := fun hc => hpq (hpr.trans hc.symm)
          refine ⟨q, hqr, ?_⟩
          rcases List.mem_cons.mp hq with h1 | h1
          · rw [hv] at h1
            exact absurd (Option.some.inj h1) hqr
          · exact h1
        · refine ⟨p, hpr, ?_⟩
          rcases List.mem_cons.mp hp with h1 | h1
          · rw [hv] at h1
            exact absurd (Option.some.inj h1) hpr
          · exact h1
      obtain ⟨w, hwr, hw⟩ := hwitness
      obtain ⟨x, hx, hxw⟩ := List.mem_map.mp hw
      rw [if_neg]
      intro hall
      have hx1 := hall x hx
      rw [hxw] at hx1
      exact hwr (Option.some.inj hx1)

theorem mpFold_first_defined : ∀ (l : List (Option String × Bool)) (e : Bool) (p : String),
    (mpFold l (MPState.undef, e)).1 = MPState.path p →
    (l.filterMap Prod.fst).head? = some p
  | [], e, p => by intro h; simp [mpFold] at h
  | pb :: rest, e, p => by
    intro h
    cases hv : pb.1 with
    | none =>
      have hstep : mpStepP (MPState.undef, e) pb = (MPState.undef, pb.2) := by
        simp [mpStepP, monikerPathStep, hv]
      have h' : (mpFold rest (MPState.undef, pb.2)).1 = MPState.path p := by
        have h2 : (mpFold rest (mpStepP (MPState.undef, e) pb)).1 = MPState.path p := h
        rwa [hstep] at h2
      rw [List.filterMap_cons_none hv]
      exact mpFold_first_defined rest pb.2 p h'
    | some r =>
      have hstep : mpStepP (MPState.undef, e) pb = (MPState.path r, pb.2) := by
        simp [mpStepP, monikerPathStep, hv]
      have h' : (mpFold rest (MPState.path r, pb.2)).1 = MPState.path p := by
        have h2 : (mpFold rest (mpStepP (MPState.undef, e) pb)).1 = MPState.path p := h
        rwa [hstep] at h2
      rw [mpFold_path rest r pb.2] at h'
      have hrp : r = p := by
        by_cases hall : ∀ x ∈ rest, x.1 = some r
        · rw [if_pos hall] at h'
          exact MPState.path.inj h'
        · rw [if_neg hall] at h'
          exact absurd h' (by simp)
      rw [List.filterMap_cons_some hv, List.head?_cons, hrp]

theorem monikerPathLoop_fst (ctx : Ctx) : ∀ (files : List SourceFile)
    (acc : MPState × Bool) (s : IState),
    (monikerPathLoop ctx files acc s).1 = mpFold (observedDocFields ctx files s) acc
  | [], _, _ => rfl
  | f :: rest, acc, s => by
    rcases hdd : getOrCreateDocumentData ctx f s with ⟨dd, s'⟩
    simp only [monikerPathLoop, observedDocFields, hdd]
    show (monikerPathLoop ctx rest (monikerPathStep acc dd.monikerPath dd.externalLibrary) s').1 =
      mpFold ((dd.monikerPath, dd.externalLibrary) :: observedDocFields ctx rest s') acc
    rw [monikerPathLoop_fst ctx rest _ s']
    rfl

/-- C3.  When the document datas fetched for a symbol's source files
disagree on a defined moniker path (two distinct defined values are
observed), the loop of `getOrCreateSymbolData` leaves the symbol with
no moniker path and `externalLibrary = false`; and whenever the loop
does produce a path, it is the first defined path in enumeration
order. -/
theorem conflicting_moniker_paths_degrade_to_none (ctx : Ctx)
    (files : List SourceFile) (s : IState) :
    (∀ (p q : String), p ≠ q →
      some p ∈ (observedDocFields ctx files s).map Prod.fst →
      some q ∈ (observedDocFields ctx files s).map Prod.fst →
      finalizeMonikerPath (monikerPathLoop ctx files (MPState.undef, false) s).1 =
        (none, false)) ∧
    (∀ (p : String) (ext : Bool),
      finalizeMonikerPath (monikerPathLoop ctx files (MPState.undef, false) s).1 =
        (some p, ext) →
      ((observedDocFields ctx files s).filterMap Prod.fst).head? = some p) := by
  constructor
  · intro p q hpq hp hq
    have h := mpFold_conflict (observedDocFields ctx files s) false p q hpq hp hq
    rcases hm : monikerPathLoop ctx files (MPState.undef, false) s with ⟨acc, s'⟩
    have hfst : acc = mpFold (observedDocFields ctx files s) (MPState.undef, false) := by
      have := monikerPathLoop_fst ctx files (MPState.undef, false) s
      rw [hm] at this
      exact this
    rcases hacc : mpFold (observedDocFields ctx files s) (MPState.undef, false) with ⟨m, e⟩
    rw [hacc] at h hfst
    simp only at h
    rw [hfst, h]
    rfl
  · intro p ext hfin
    rcases hm : monikerPathLoop ctx files (MPState.undef, false) s with ⟨acc, s'⟩
    have hfst : acc = mpFold (observedDocFields ctx files s) (MPState.undef, false) := by
      have := monikerPathLoop_fst ctx files (MPState.undef, false) s
      rw [hm] at this
      exact this
    rw [hm] at hfin
    rcases hacc : mpFold (observedDocFields ctx files s) (MPState.undef, false) with ⟨m, e⟩
    rw [hacc] at hfst
    apply mpFold_first_defined (observedDocFields ctx files s) false p
    rw [hacc]
    cases m with
    | undef =>
      rw [hfst] at hfin
      exact absurd hfin (by simp [finalizeMonikerPath])
    | voided =>
      rw [hfst] at hfin
      exact absurd hfin (by simp [finalizeMonikerPath])
    | path r =>
      rw [hfst] at hfin
      have : r = p := by
        have := congrArg Prod.fst hfin
        simpa [finalizeMonikerPath] using this
      simp [this]

/-- Two project files whose document datas carry different moniker
paths. -/
def conflictFileA : SourceFile := ⟨"p/src/a.ts", false⟩

def conflictFileB : SourceFile := ⟨"p/src/b.ts", false⟩

/-- A run state whose document cache already holds the two
conflicting document datas. -/
def conflictState : IState :=
  { symbolDatas := [],
    documentDatas :=
      [("p/src/a.ts", ⟨"p/src/a.ts", false, some "out/a.ts", []⟩),
       ("p/src/b.ts", ⟨"p/src/b.ts", false, some "out/b.ts", []⟩)],
    currentSourceFile := none, currentDocumentData := none, emitted := [] }

/-- Witness for C3: two conflicting defined paths degrade to
`(none, false)`. -/
theorem conflicting_moniker_paths_degrade_to_none_witness :
    ("out/a.ts" : String) ≠ "out/b.ts" ∧
    some "out/a.ts" ∈
      (observedDocFields plainCtx [conflictFileA, conflictFileB] conflictState).map Prod.fst ∧
    some "out/b.ts" ∈
      (observedDocFields plainCtx [conflictFileA, conflictFileB] conflictState).map Prod.fst ∧
    finalizeMonikerPath
      (monikerPathLoop plainCtx [conflictFileA, conflictFileB] (MPState.undef, false) conflictState).1 =
      (none, false) :=
  ⟨by decide, by decide, by decide,
   (conflicting_moniker_paths_degrade_to_none plainCtx [conflictFileA, conflictFileB]
      conflictState).1 "out/a.ts" "out/b.ts" (by decide) (by decide) (by decide)⟩

/-! ### C5: declaration sets by resolution variant (v2 indexer) -/

/-- The resolution variants of v2 `getResolverType`
(src/v2/resolution.ts is not in the sources; the variant set follows
the spec's Resolver Classifier and the switch cases of the v2
indexer). -/
inductive ResolverType where
  | standard
  | aliasRT
  | methodRT
  | unionOrIntersection
  | transient
deriving DecidableEq, Repr

/-- v2 `Indexer.getDeclarations`. -/
def getDeclarationsV2 (info : SymbolInfo) (node : Node) (rt : ResolverType) : List Node :=
  match rt with
  | ResolverType.transient => [node]
  | ResolverType.unionOrIntersection => [node]
  | _ => info.declarations.getD []

/-- v2 `Indexer.getSourceFiles`. -/
def getSourceFilesV2 (info : SymbolInfo) (node : Node) (rt : ResolverType) : List SourceFile :=
  match rt with
  | ResolverType.transient => [node.sourceFile]
  | ResolverType.unionOrIntersection => [node.sourceFile]
  | _ => uniqueSourceFiles ((info.declarations.getD []).map Node.sourceFile)

/-- C5.  Transient and union/intersection symbols use exactly the
singleton use-site node as declaration set and the use-site's source
file as source-file set; standard, alias and method symbols use the
oracle's declaration list. -/
theorem declarations_by_variant (info : SymbolInfo) (node : Node) (rt : ResolverType) :
    ((rt = ResolverType.transient ∨ rt = ResolverType.unionOrIntersection) →
      getDeclarationsV2 info node rt = [node] ∧
      getSourceFilesV2 info node rt = [node.sourceFile]) ∧
    ((rt = ResolverType.standard ∨ rt = ResolverType.aliasRT ∨ rt = ResolverType.methodRT) →
      getDeclarationsV2 info node rt = info.declarations.getD [] ∧
      getSourceFilesV2 info node rt =
        uniqueSourceFiles ((info.declarations.getD []).map Node.sourceFile)) := by
  constructor
  · rintro (rfl | rfl) <;> exact ⟨rfl, rfl⟩
  · rintro (rfl | rfl | rfl) <;> exact ⟨rfl, rfl⟩

/-- Witness for C5 at the transient variant and a concrete node. -/
theorem declarations_by_variant_witness :
    (ResolverType.transient = ResolverType.transient ∨
     ResolverType.transient = ResolverType.unionOrIntersection) ∧
    getDeclarationsV2 plainInfo (sampleNode SynKind.identifier) ResolverType.transient =
      [sampleNode SynKind.identifier] ∧
    getSourceFilesV2 plainInfo (sampleNode SynKind.identifier) ResolverType.transient =
      [(sampleNode SynKind.identifier).sourceFile] :=
  ⟨Or.inl rfl,
   (declarations_by_variant plainInfo (sampleNode SynKind.identifier)
      ResolverType.transient).1 (Or.inl rfl)⟩

end LsifTsc

/-!
## The descriptor-family visitor (src/Visitor.ts) and the top-level
driver (the unnamed `Indexer.index` source file)
-/

namespace ScipTs

open LsifTsc (Pos Rg)

/-- The syntax kinds the descriptor-family visitor dispatches on. -/
inductive VKind where
  | enumDeclaration
  | variableDeclaration
  | propertyDeclaration
  | methodSignature
  | methodDeclaration
  | propertySignature
  | functionDeclaration
  | moduleDeclaration
  | propertyAssignment
  | shorthandPropertyAssignment
  | interfaceDeclaration
  | classDeclaration
  | identifier
  | block
  | importSpecifier
  | moduleBlock
  | importDeclaration
  | importClause
  | namedImports
  | variableStatement
  | variableDeclarationList
  | otherKind
deriving DecidableEq, Repr

/-- A syntax node of the visitor: either a source file or a node with
a parent link.  `id` models the object identity of the `ts.Node`
(caches are keyed by it, and `===` compares it); `nameId`/`nameText`
model the `node.name` child's identity and text. -/
inductive VNode where
  | sourceFile (fileName : String) (id : Nat)
  | node (parent : VNode) (kind : VKind) (id : Nat) (text : String)
         (nameId : Option Nat) (nameText : Option String) (rg : Rg)
deriving DecidableEq, Repr

namespace VNode

def id : VNode → Nat
  | .sourceFile _ i => i
  | .node _ _ i _ _ _ _ => i

/-- `node.getSourceFile()`: the root of the parent chain. -/
def root : VNode → VNode
  | .sourceFile fn i => .sourceFile fn i
  | .node parent _ _ _ _ _ _ => parent.root

end VNode

/-- One descriptor segment (`Descriptor.ts` is not in the sources;
modelled from the spec's glossary: named segments of kind
namespace/package, type, term, method, meta). -/
inductive Descriptor where
  | typeD (name : String)
  | methodD (name : String) (disambiguator : String)
  | termD (name : String)
  | packageD (name : String)
  | metaD (name : String)
deriving DecidableEq, Repr

/-- A symbol identifier (`LsifSymbol.ts` is not in the sources;
modelled from the spec: empty, counter-based local, or
globally-addressed by owner and descriptor). -/
inductive LsifSymbol where
  | empty
  | localSym (i : Nat)
  | global (owner : LsifSymbol) (desc : Descriptor)
deriving DecidableEq, Repr

/-- `LsifSymbol.isEmptyOrLocal`. -/
def LsifSymbol.isEmptyOrLocal : LsifSymbol → Bool
  | .empty => true
  | .localSym _ => true
  | .global _ _ => false

/-- One recorded occurrence (`lsif_typed.Occurrence`). -/
structure Occurrence where
  range : Rg
  symbol : LsifSymbol
  symbolRoles : Nat
deriving DecidableEq, Repr

/-- The part of `ts.Symbol` the visitor reads. -/
structure VSymbol where
  declarations : Option (List VNode)
deriving DecidableEq, Repr

/-- The oracle of the visitor: the type checker and the `Packages`
collaborator. -/
structure VCtx where
  /-- `checker.getSymbolAtLocation(node)`. -/
  getSymbolAtLocation : VNode → Option VSymbol
  /-- `checker.getTypeAtLocation(node).symbol.declarations`. -/
  typeDeclarations : VNode → Option (List VNode)
  /-- `packages.symbol(fileName)`. -/
  pkgSymbol : String → Option LsifSymbol

/-- The mutable state of one `Visitor` instance: the per-file local
counter, per-file property counters and local-symbol cache, the
run-shared symbols cache, and the document's occurrence list.  The
`Counter` class is not in the sources; modelled from the spec as a
fresh-integer counter (`next()` returns the current value and bumps
it). -/
structure VisitorState where
  localCounter : Nat
  propertyCounters : List (String × Nat)
  localSymbolCache : List (Nat × LsifSymbol)
  symbolsCache : List (Nat × LsifSymbol)
  occurrences : List Occurrence
deriving DecidableEq, Repr

/-- `Visitor.newLocalSymbol`: allocates `LsifSymbol.local(counter.next())`
and records it in the per-visitor local cache. -/
def newLocalSymbol (s : VisitorState) (node : VNode) : LsifSymbol × VisitorState :=
  let symbol := LsifSymbol.localSym s.localCounter
  (symbol,
   { s with localCounter := s.localCounter + 1,
            localSymbolCache := (node.id, symbol) :: s.localSymbolCache })

/-- `Visitor.cached`: records the symbol in the run-shared cache. -/
def cachedSym (s : VisitorState) (node : VNode) (sym : LsifSymbol) :
    LsifSymbol × VisitorState :=
  (sym, { s with symbolsCache := (node.id, sym) :: s.symbolsCache })

/-- `isAnonymousContainerOfSymbols` from src/Visitor.ts. -/
def isAnonymousContainerOfSymbols : VNode → Bool
  | .node _ k _ _ _ _ _ =>
    match k with
    | VKind.moduleBlock => true
    | VKind.importDeclaration => true
    | VKind.importClause => true
    | VKind.namedImports => true
    | VKind.variableStatement => true
    | VKind.variableDeclarationList => true
    | _ => false
  | _ => false

/-- `Visitor.descriptor`. -/
def descriptor (ctx : VCtx) : Nat → VNode → Option Descriptor
  | _, VNode.sourceFile _ _ => none
  | fuel, VNode.node parent k i tx nameId nameText rg =>
    match k with
    | VKind.interfaceDeclaration => some (Descriptor.typeD (nameText.getD ""))
    | VKind.functionDeclaration => some (Descriptor.methodD (nameText.getD "boom") "")
    | VKind.methodSignature => some (Descriptor.methodD (nameText.getD "boom") "")
    | VKind.propertyDeclaration => some (Descriptor.termD (nameText.getD ""))
    | VKind.propertySignature => some (Descriptor.termD (nameText.getD ""))
    | VKind.variableDeclaration => some (Descriptor.termD (nameText.getD ""))
    | VKind.moduleDeclaration => some (Descriptor.packageD (nameText.getD ""))
    | VKind.importSpecifier =>
      match fuel with
      | 0 => none
      | fuel + 1 =>
        match (ctx.typeDeclarations (VNode.node parent k i tx nameId nameText rg)).getD [] with
        | [] => none
        | d :: _ => descriptor ctx fuel d
    | _ => none

/-- `Visitor.lsifSymbol`, fuelled: `none` is fuel exhaustion (the
source recursion through `checker.getTypeAtLocation` declarations is
not structurally bounded). -/
def lsifSymbol (ctx : VCtx) : Nat → VNode → VisitorState →
    Option (LsifSymbol × VisitorState)
  | 0, _, _ => none
  | fuel + 1, node, s =>
    match (s.symbolsCache.lookup node.id).orElse
        (fun _ => s.localSymbolCache.lookup node.id) with
    | some fromCache => some (fromCache, s)
    | none =>
      match node with
      | VNode.sourceFile fileName i =>
        match ctx.pkgSymbol fileName with
        | none => some (cachedSym s (VNode.sourceFile fileName i) LsifSymbol.empty)
        | some pkg => some (cachedSym s (VNode.sourceFile fileName i) pkg)
      | VNode.node parent k i tx nameId nameText rg =>
        let node := VNode.node parent k i tx nameId nameText rg
        if k = VKind.block then
          some (LsifSymbol.empty, s)
        else if k = VKind.propertyAssignment ∨ k = VKind.shorthandPropertyAssignment then
          let nm := nameText.getD ""
          let counter := (s.propertyCounters.lookup nm).getD 0
          let s := { s with propertyCounters := (nm, counter + 1) :: s.propertyCounters }
          match lsifSymbol ctx fuel node.root s with
          | none => none
          | some (ownerRoot, s) =>
            some (cachedSym s node
              (LsifSymbol.global ownerRoot (Descriptor.metaD (nm ++ toString counter))))
        else
          match lsifSymbol ctx fuel parent s with
          | none => none
          | some (owner, s) =>
            if owner.isEmptyOrLocal then
              some (newLocalSymbol s node)
            else if isAnonymousContainerOfSymbols node then
              match lsifSymbol ctx fuel parent s with
              | none => none
              | some (owner2, s) => some (cachedSym s node owner2)
            else if k = VKind.importSpecifier then
              match (ctx.typeDeclarations node).getD [] with
              | d :: _ => lsifSymbol ctx fuel d s
              | [] =>
                match descriptor ctx fuel node with
                | some desc => some (cachedSym s node (LsifSymbol.global owner desc))
                | none => some (newLocalSymbol s node)
            else
              match descriptor ctx fuel node with
              | some desc => some (cachedSym s node (LsifSymbol.global owner desc))
              | none => some (newLocalSymbol s node)

/-- `Visitor.declarationName`: the name child (by identity) when the
node is one of the declaration shapes. -/
def declarationName : VNode → Option Nat
  | .node _ k _ _ nameId _ _ =>
    match k with
    | VKind.enumDeclaration => nameId
    | VKind.variableDeclaration => nameId
    | VKind.propertyDeclaration => nameId
    | VKind.methodSignature => nameId
    | VKind.methodDeclaration => nameId
    | VKind.propertySignature => nameId
    | VKind.functionDeclaration => nameId
    | VKind.moduleDeclaration => nameId
    | VKind.propertyAssignment => nameId
    | VKind.shorthandPropertyAssignment => nameId
    | VKind.interfaceDeclaration => nameId
    | _ => none
  | _ => none

/-- The occurrence-pushing loop of `Visitor.visit`
(`for declaration of sym?.declarations || []`). -/
def pushOccurrences (ctx : VCtx) (fuel : Nat) :
    List VNode → Rg → Nat → VisitorState → Option VisitorState
  | [], _, _, s => some s
  | d :: rest, range, role, s =>
    match lsifSymbol ctx fuel d s with
    | none => none
    | some (sym, s) =>
      let s := { s with occurrences := s.occurrences ++ [⟨range, sym, role⟩] }
      pushOccurrences ctx fuel rest range role s

/-- The identifier block of `Visitor.visit`: for an identifier node,
one occurrence is pushed per declaration of its symbol; other nodes
contribute nothing here. -/
def visitIdentifier (ctx : VCtx) (fuel : Nat) (node : VNode) (s : VisitorState) :
    Option VisitorState :=
  match node with
  | VNode.node parent VKind.identifier i tx nameId nameText rg =>
    let node := VNode.node parent VKind.identifier i tx nameId nameText rg
    let role : Nat := if declarationName parent = some node.id then 1 else 0
    let declarations :=
      match ctx.getSymbolAtLocation node with
      | none => []
      | some sym => sym.declarations.getD []
    pushOccurrences ctx fuel declarations rg role s
  | _ => some s

/-- A syntax tree for the traversal (`ts.forEachChild`). -/
inductive VTree where
  | mk (node : VNode) (children : List VTree)

mutual

/-- `Visitor.visit`: the identifier block, then the children. -/
def visitT (ctx : VCtx) (fuel : Nat) : VTree → VisitorState → Option VisitorState
  | VTree.mk node children, s =>
    match visitIdentifier ctx fuel node s with
    | none => none
    | some s => visitChildren ctx fuel children s

def visitChildren (ctx : VCtx) (fuel : Nat) :
    List VTree → VisitorState → Option VisitorState
  | [], s => some s
  | t :: rest, s =>
    match visitT ctx fuel t s with
    | none => none
    | some s => visitChildren ctx fuel rest s

end

/-- The `Visitor` constructor state: fresh local counter, property
counters and local cache; the run-shared symbols cache is passed in by
the driver. -/
def mkVisitorState (symbolsCache : List (Nat × LsifSymbol)) : VisitorState :=
  { localCounter := 0, propertyCounters := [], localSymbolCache := [],
    symbolsCache := symbolsCache, occurrences := [] }

/-- `path.relative(projectRoot, fileName)`, modelled for root-relative
paths (the `path` module is an external collaborator). -/
def pathRelative (root p : String) : String :=
  if (root.data ++ ['/']).isPrefixOf p.data then
    { data := p.data.drop (root.data.length + 1) }
  else p

/-- One entry of `program.getSourceFiles()`. -/
structure FileEntry where
  fileName : String
  tree : VTree

/-- One scip document (`lsif_typed.Document`). -/
structure ScipDoc where
  relativePath : String
  occurrences : List Occurrence
deriving DecidableEq, Repr

/-- One `writeIndex` payload of the driver. -/
inductive IndexOut where
  | metaIndex (projectRoot : String)
  | docsIndex (docs : List ScipDoc)
deriving DecidableEq, Repr

/-- The per-file loop of the top-level `Indexer.index`: a fresh
`Visitor` per configured file sharing one `symbolsCache`, a document
written only when the visitor produced occurrences. -/
def indexFold (ctx : VCtx) (fuel : Nat) (fileNames : List String) (projectRoot : String) :
    List FileEntry → List (Nat × LsifSymbol) → List IndexOut → Option (List IndexOut)
  | [], _, out => some out
  | fe :: rest, sc, out =>
    if fe.fileName ∈ fileNames then
      match visitT ctx fuel fe.tree (mkVisitorState sc) with
      | none => none
      | some s =>
        let out :=
          if s.occurrences.length > 0 then
            out ++ [IndexOut.docsIndex [⟨pathRelative projectRoot fe.fileName, s.occurrences⟩]]
          else out
        indexFold ctx fuel fileNames projectRoot rest s.symbolsCache out
    else
      indexFold ctx fuel fileNames projectRoot rest sc out

/-- The top-level `Indexer.index`: metadata first, then the per-file
loop over `program.getSourceFiles()`. -/
def indexRun (ctx : VCtx) (fuel : Nat) (program : List FileEntry)
    (fileNames : List String) (projectRoot : String) : Option (List IndexOut) :=
  indexFold ctx fuel fileNames projectRoot program [] [IndexOut.metaIndex projectRoot]

/-! ### Fixtures for the visitor claims -/

def rg0 : Rg := ⟨⟨0, 0⟩, ⟨0, 1⟩⟩

def fileNodeA : VNode := VNode.sourceFile "a.ts" 0

def fileNodeB : VNode := VNode.sourceFile "b.ts" 10

/-- A variable declaration in file A. -/
def localNodeA : VNode := VNode.node fileNodeA VKind.variableDeclaration 1 "x" none none rg0

/-- A distinct variable declaration in file B. -/
def localNodeB : VNode := VNode.node fileNodeB VKind.variableDeclaration 11 "y" none none rg0

/-- An oracle with no package information and no symbols. -/
def emptyVCtx : VCtx := ⟨fun _ => none, fun _ => none, fun _ => none⟩

/-! ### C6: local identifiers ARE reused across files -/

/-- C6 counterexample.  `Indexer.index` constructs a fresh `Visitor`
(and hence a fresh `localCounter`) per configured file; resolving a
local-symbol node in file A's visitor and a distinct node in file B's
visitor (which inherits only the shared `symbolsCache`) yields the
same local identifier `local 0` for two distinct nodes. -/
theorem local_identifier_reused_across_files :
    localNodeA ≠ localNodeB ∧
    (lsifSymbol emptyVCtx 10 localNodeA (mkVisitorState [])).map Prod.fst =
      some (LsifSymbol.localSym 0) ∧
    (lsifSymbol emptyVCtx 10 localNodeB
        (mkVisitorState [(0, LsifSymbol.empty)])).map Prod.fst =
      some (LsifSymbol.localSym 0) := by
  refine ⟨by decide, ?_, ?_⟩ <;> rfl

/-- C6 amended.  Within one `Visitor` (one source file), local
identifiers are never reused: `newLocalSymbol` hands out the current
counter value and bumps the counter, so two successive assignments in
the same visitor state yield distinct identifiers. -/
theorem local_symbols_distinct_within_visitor (s : VisitorState) (n1 n2 : VNode) :
    (newLocalSymbol s n1).1 = LsifSymbol.localSym s.localCounter ∧
    ((newLocalSymbol s n1).2).localCounter = s.localCounter + 1 ∧
    (newLocalSymbol s n1).1 ≠ (newLocalSymbol (newLocalSymbol s n1).2 n2).1 := by
  refine ⟨rfl, rfl, ?_⟩
  simp [newLocalSymbol]

/-! ### C8: anonymous containers are transparent — unless the parent
resolves empty-or-local -/

/-- A `var` statement wrapper in file A (an anonymous container). -/
def anonNode : VNode := VNode.node fileNodeA VKind.variableStatement 2 "" none none rg0

/-- C8 counterexample.  For an anonymous container whose parent
resolves to the empty symbol (a source file with no package), the
container is given a fresh local symbol, not its parent's
identifier. -/
theorem anonymous_container_not_always_parent :
    isAnonymousContainerOfSymbols anonNode = true ∧
    (lsifSymbol emptyVCtx 10 fileNodeA (mkVisitorState [])).map Prod.fst =
      some LsifSymbol.empty ∧
    (lsifSymbol emptyVCtx 10 anonNode (mkVisitorState [])).map Prod.fst =
      some (LsifSymbol.localSym 0) ∧
    (LsifSymbol.localSym 0 : LsifSymbol) ≠ LsifSymbol.empty := by
  refine ⟨rfl, rfl, rfl, by decide⟩

/-- C8 amended.  An uncached anonymous-container node whose parent's
already-resolved identifier is neither empty nor local resolves to
exactly the parent's identifier (and is cached so); when the parent
resolves empty-or-local it receives a fresh local symbol instead (see
the counterexample). -/
theorem anonymous_container_inherits_parent (ctx : VCtx) (fuel : Nat) (parent : VNode)
    (k : VKind) (i : Nat) (tx : String) (nameId : Option Nat) (nameText : Option String)
    (rg : Rg) (s : VisitorState) (sym : LsifSymbol)
    (hanon : isAnonymousContainerOfSymbols (VNode.node parent k i tx nameId nameText rg) = true)
    (hc1 : s.symbolsCache.lookup i = none)
    (hc2 : s.localSymbolCache.lookup i = none)
    (hp : s.symbolsCache.lookup parent.id = some sym)
    (hsym : sym.isEmptyOrLocal = false) :
    lsifSymbol ctx (fuel + 2) (VNode.node parent k i tx nameId nameText rg) s =
      some (sym, { s with symbolsCache := (i, sym) :: s.symbolsCache }) := by
  have hparent : lsifSymbol ctx (fuel + 1) parent s = some (sym, s) := by
    cases parent with
    | sourceFile fn j =>
      simp only [lsifSymbol, VNode.id] at hp ⊢
      rw [hp]
      rfl
    | node pp pk pj ptx pn pnt prg =>
      simp only [lsifSymbol, VNode.id] at hp ⊢
      rw [hp]
      rfl
  cases k <;>
    first
      | (simp only [isAnonymousContainerOfSymbols, Bool.false_eq_true] at hanon; done)
      | (rw [lsifSymbol]
         simp only [VNode.id]
         rw [hc1, hc2]
         simp [Option.orElse, hparent, hsym, isAnonymousContainerOfSymbols, cachedSym, VNode.id])

/-- A non-local global symbol cached for the parent source file. -/
def globSym : LsifSymbol := LsifSymbol.global LsifSymbol.empty (Descriptor.packageD "pkg")

/-- A visitor state whose shared cache already resolved file A. -/
def s8 : VisitorState := mkVisitorState [(0, globSym)]

/-- Witness for the amended C8 at a concrete `var`-statement wrapper
whose parent resolved to a global symbol. -/
theorem anonymous_container_inherits_parent_witness :
    isAnonymousContainerOfSymbols
      (VNode.node fileNodeA VKind.variableStatement 2 "" none none rg0) = true ∧
    s8.symbolsCache.lookup 2 = none ∧
    s8.localSymbolCache.lookup 2 = none ∧
    s8.symbolsCache.lookup fileNodeA.id = some globSym ∧
    globSym.isEmptyOrLocal = false ∧
    lsifSymbol emptyVCtx 2
        (VNode.node fileNodeA VKind.variableStatement 2 "" none none rg0) s8 =
      some (globSym, { s8 with symbolsCache := (2, globSym) :: s8.symbolsCache }) :=
  ⟨rfl, rfl, rfl, rfl, rfl,
   anonymous_container_inherits_parent emptyVCtx 0 fileNodeA VKind.variableStatement
     2 "" none none rg0 s8 globSym rfl rfl rfl rfl rfl⟩

/-! ### C9: one occurrence per declaration of a visited identifier -/

/-- `lsifSymbol` never touches the document's occurrence list (it only
consults and fills the caches and counters). -/
theorem lsifSymbol_occurrences (ctx : VCtx) :
    ∀ (fuel : Nat) (d : VNode) (s : VisitorState) (sym : LsifSymbol) (s' : VisitorState),
      lsifSymbol ctx fuel d s = some (sym, s') → s'.occurrences = s.occurrences := by
  intro fuel
  induction fuel with
  | zero =>
    intro d s sym s' h
    simp [lsifSymbol] at h
  | succ fuel IH =>
    intro d s sym s' h
    simp only [lsifSymbol] at h
    split at h
    · cases h; rfl
    · split at h
      · split at h
        · cases h; rfl
        · cases h; rfl
      · split at h
        · cases h; rfl
        · split at h
          · split at h
            · exact Option.noConfusion h
            case _ ownerRoot s2 heq2 =>
              cases h
              have h5 := IH _ _ _ _ heq2
              exact h5
          · split at h
            · exact Option.noConfusion h
            case _ owner s2 heq2 =>
              have hs2 : s2.occurrences = s.occurrences := IH _ _ _ _ heq2
              split at h
              · cases h; exact hs2
              · split at h
                · split at h
                  · exact Option.noConfusion h
                  case _ o2 s3 heq3 =>
                    cases h
                    exact (IH _ _ _ _ heq3).trans hs2
                · split at h
                  · split at h
                    · exact (IH _ _ _ _ h).trans hs2
                    · split at h
                      · cases h; exact hs2
                      · cases h; exact hs2
                  · split at h
                    · cases h; exact hs2
                    · cases h; exact hs2

/-- The occurrence-pushing loop appends exactly one occurrence per
declaration, each with the identifier's range and role. -/
theorem pushOccurrences_spec (ctx : VCtx) (fuel : Nat) :
    ∀ (ds : List VNode) (range : Rg) (role : Nat) (s s' : VisitorState),
      pushOccurrences ctx fuel ds range role s = some s' →
      ∃ newOccs : List Occurrence,
        s'.occurrences = s.occurrences ++ newOccs ∧
        newOccs.length = ds.length ∧
        ∀ o ∈ newOccs, o.range = range ∧ o.symbolRoles = role := by
  intro ds
  induction ds with
  | nil =>
    intro range role s s' h
    simp only [pushOccurrences, Option.some.injEq] at h
    subst h
    exact ⟨[], by simp, rfl, by simp⟩
  | cons d rest IH =>
    intro range role s s' h
    simp only [pushOccurrences] at h
    split at h
    · exact Option.noConfusion h
    case _ sym s1 heq =>
      obtain ⟨new', h1, h2, h3⟩ := IH range role _ s' h
      have hs1 : s1.occurrences = s.occurrences :=
        lsifSymbol_occurrences ctx fuel d s sym s1 heq
      refine ⟨⟨range, sym, role⟩ :: new', ?_, ?_, ?_⟩
      · rw [h1]
        simp only [hs1]
        simp
      · simp [h2]
      · intro o ho
        rcases List.mem_cons.mp ho with rfl | ho
        · exact ⟨rfl, rfl⟩
        · exact h3 o ho

/-- C9.  A visited identifier contributes one occurrence per
declaration of its semantic symbol, all with the identifier's range;
an identifier with no symbol (and hence no declarations) contributes
none. -/
theorem identifier_occurrences (ctx : VCtx) (fuel : Nat) (parent : VNode) (i : Nat)
    (tx : String) (nameId : Option Nat) (nameText : Option String) (rg : Rg)
    (s : VisitorState) :
    (∀ (vsym : VSymbol) (s' : VisitorState),
      ctx.getSymbolAtLocation (VNode.node parent VKind.identifier i tx nameId nameText rg) =
        some vsym →
      visitIdentifier ctx fuel (VNode.node parent VKind.identifier i tx nameId nameText rg) s =
        some s' →
      ∃ newOccs : List Occurrence,
        s'.occurrences = s.occurrences ++ newOccs ∧
        newOccs.length = (vsym.declarations.getD []).length ∧
        ∀ o ∈ newOccs, o.range = rg) ∧
    (ctx.getSymbolAtLocation (VNode.node parent VKind.identifier i tx nameId nameText rg) =
        none →
      visitIdentifier ctx fuel (VNode.node parent VKind.identifier i tx nameId nameText rg) s =
        some s) := by
  constructor
  · intro vsym s' hsym h
    simp only [visitIdentifier, hsym] at h
    obtain ⟨newOccs, h1, h2, h3⟩ := pushOccurrences_spec ctx fuel _ _ _ s s' h
    exact ⟨newOccs, h1, h2, fun o ho => (h3 o ho).1⟩
  · intro hnone
    simp [visitIdentifier, hnone, pushOccurrences]

/-! ### C9/C10 concrete fixtures -/

/-- A named variable declaration in file A whose name child is node 2. -/
def declNodeW : VNode :=
  VNode.node fileNodeA VKind.variableDeclaration 1 "x" (some 2) (some "x") rg0

/-- The identifier node (the declaration's name). -/
def idNodeW : VNode := VNode.node declNodeW VKind.identifier 2 "x" none none rg0

/-- An oracle resolving the identifier to a symbol declared at
`declNodeW`. -/
def wCtx : VCtx :=
  ⟨fun n => if n.id = 2 then some ⟨some [declNodeW]⟩ else none,
   fun _ => none, fun _ => none⟩

/-- The visitor state after visiting the identifier. -/
def c9state : VisitorState :=
  { localCounter := 1, propertyCounters := [],
    localSymbolCache := [(1, LsifSymbol.localSym 0)],
    symbolsCache := [(0, LsifSymbol.empty)],
    occurrences := [⟨rg0, LsifSymbol.localSym 0, 1⟩] }

/-- Witness for C9 at a concrete identifier with one declaration. -/
theorem identifier_occurrences_witness :
    wCtx.getSymbolAtLocation idNodeW = some ⟨some [declNodeW]⟩ ∧
    visitIdentifier wCtx 10 idNodeW (mkVisitorState []) = some c9state ∧
    ∃ newOccs : List Occurrence,
      c9state.occurrences = (mkVisitorState []).occurrences ++ newOccs ∧
      newOccs.length = ((some [declNodeW] : Option (List VNode)).getD []).length ∧
      ∀ o ∈ newOccs, o.range = rg0 :=
  ⟨rfl, rfl,
   (identifier_occurrences wCtx 10 declNodeW 2 "x" none none rg0
      (mkVisitorState [])).1 ⟨some [declNodeW]⟩ c9state rfl rfl⟩

/-! ### C10: documents only for configured files with occurrences -/

/-- Every document index emitted by the per-file loop either was in
the accumulator already or stems from a configured entry whose visit
produced occurrences. -/
theorem indexFold_spec (ctx : VCtx) (fuel : Nat) (fileNames : List String)
    (root : String) :
    ∀ (entries : List FileEntry) (sc : List (Nat × LsifSymbol)) (acc out : List IndexOut),
      indexFold ctx fuel fileNames root entries sc acc = some out →
      ∀ (docs : List ScipDoc) (d : ScipDoc),
        IndexOut.docsIndex docs ∈ out → d ∈ docs →
        IndexOut.docsIndex docs ∈ acc ∨
        (d.occurrences ≠ [] ∧ ∃ fe ∈ entries, fe.fileName ∈ fileNames ∧
          d.relativePath = pathRelative root fe.fileName)
  | [], sc, acc, out => by
    intro h docs d hdocs hd
    simp only [indexFold, Option.some.injEq] at h
    subst h
    exact Or.inl hdocs
  | fe :: rest, sc, acc, out => by
    intro h docs d hdocs hd
    by_cases hin : fe.fileName ∈ fileNames
    · rw [indexFold, if_pos hin] at h
      split at h
      · exact Option.noConfusion h
      case _ s heq =>
        by_cases hocc : s.occurrences.length > 0
        · rw [if_pos hocc] at h
          rcases indexFold_spec ctx fuel fileNames root rest s.symbolsCache _ out h
              docs d hdocs hd with hmem | ⟨hne, fe', hfe', hfn, hrel⟩
          · rcases List.mem_append.mp hmem with hacc | hnew
            · exact Or.inl hacc
            · have hdocs' : docs = [⟨pathRelative root fe.fileName, s.occurrences⟩] := by
                simpa using hnew
              subst hdocs'
              have hd' : d = ⟨pathRelative root fe.fileName, s.occurrences⟩ := by
                simpa using hd
              subst hd'
              refine Or.inr ⟨?_, fe, List.mem_cons_self fe rest, hin, rfl⟩
              exact List.length_pos.mp hocc
          · exact Or.inr ⟨hne, fe', List.mem_cons_of_mem fe hfe', hfn, hrel⟩
        · rw [if_neg hocc] at h
          rcases indexFold_spec ctx fuel fileNames root rest s.symbolsCache _ out h
              docs d hdocs hd with hmem | ⟨hne, fe', hfe', hfn, hrel⟩
          · exact Or.inl hmem
          · exact Or.inr ⟨hne, fe', List.mem_cons_of_mem fe hfe', hfn, hrel⟩
    · rw [indexFold, if_neg hin] at h
      rcases indexFold_spec ctx fuel fileNames root rest sc _ out h
          docs d hdocs hd with hmem | ⟨hne, fe', hfe', hfn, hrel⟩
      · exact Or.inl hmem
      · exact Or.inr ⟨hne, fe', List.mem_cons_of_mem fe hfe', hfn, hrel⟩

/-- C10.  Every document the top-level indexer writes stems from a
file listed in the configuration's file names whose visitor produced
at least one occurrence; a configured file with zero occurrences
contributes no document. -/
theorem documents_require_configured_nonempty (ctx : VCtx) (fuel : Nat)
    (program : List FileEntry) (fileNames : List String) (root : String)
    (out : List IndexOut)
    (h : indexRun ctx fuel program fileNames root = some out) :
    ∀ (docs : List ScipDoc) (d : ScipDoc),
      IndexOut.docsIndex docs ∈ out → d ∈ docs →
      d.occurrences ≠ [] ∧ ∃ fe ∈ program, fe.fileName ∈ fileNames ∧
        d.relativePath = pathRelative root fe.fileName := by
  intro docs d hdocs hd
  rcases indexFold_spec ctx fuel fileNames root program [] _ out h docs d hdocs hd with
    hmem | hp
  · simp at hmem
  · exact hp

/-- The syntax tree of the witness file. -/
def treeW : VTree := VTree.mk fileNodeA [VTree.mk declNodeW [VTree.mk idNodeW []]]

def programW : List FileEntry := [⟨"a.ts", treeW⟩]

/-- The expected output of the witness run. -/
def outW : List IndexOut :=
  [IndexOut.metaIndex "",
   IndexOut.docsIndex [⟨"a.ts", [⟨rg0, LsifSymbol.localSym 0, 1⟩]⟩]]

/-- Witness for C10: a one-file run emitting one document with one
occurrence. -/
theorem documents_require_configured_nonempty_witness :
    indexRun wCtx 10 programW ["a.ts"] "" = some outW ∧
    IndexOut.docsIndex [⟨"a.ts", [⟨rg0, LsifSymbol.localSym 0, 1⟩]⟩] ∈ outW ∧
    ((⟨"a.ts", [⟨rg0, LsifSymbol.localSym 0, 1⟩]⟩ : ScipDoc).occurrences ≠ [] ∧
      ∃ fe ∈ programW, fe.fileName ∈ ["a.ts"] ∧
        (⟨"a.ts", [⟨rg0, LsifSymbol.localSym 0, 1⟩]⟩ : ScipDoc).relativePath =
          pathRelative "" fe.fileName) :=
  ⟨rfl, by decide,
   documents_require_configured_nonempty wCtx 10 programW ["a.ts"] "" outW rfl
     [⟨"a.ts", [⟨rg0, LsifSymbol.localSym 0, 1⟩]⟩]
     ⟨"a.ts", [⟨rg0, LsifSymbol.localSym 0, 1⟩]⟩ (by decide) (by decide)⟩

end ScipTs
